import Mathlib

/-!
Shallow embedding of the persistence core of the Text-Based-Video-Editor
repository: the project registry (`src/database/models.py` together with its
wrapper `src/utils/project_manager.py`) and the per-project store
(`src/database/project_db.py`).

Modelling conventions:

* A SQLite table is a list of records, in insertion order; an
  `AUTOINCREMENT` id is one more than the largest id in the table.
* The filesystem is a list of paths; a path is its list of components, so
  that path-tree questions (`rmtree`, `os.rename` of a directory) are
  component-wise, never raw string-prefix matches.
* `REAL` columns are modelled as `Rat`, id columns as `Nat`,
  `track_number` as `Int`.
* Timestamp columns and the opaque JSON blobs (`metadata`, `parameters`,
  registry `settings`) are not modelled: no property proved below depends
  on them.
* The Python `sqlite3` driver never executes `PRAGMA foreign_keys = ON`
  anywhere in the sources, and SQLite keeps foreign-key enforcement off by
  default, so the `FOREIGN KEY ... ON DELETE CASCADE` clauses declared in
  both schemas are inert at run time: a `DELETE` removes only the rows it
  names and an `INSERT` does not check referential integrity.  The store
  operations below embed that run-time behaviour, not the schema's
  declared intent.
* Every fallible Python operation returns a `(success, message, id?)`
  tuple; here each such operation returns a record bundling that tuple
  with the updated state (registry, filesystem or store), since the state
  is threaded explicitly.
-/

/-! ## Name sanitisation (`ProjectManager._sanitize_name`) -/

/-- Characters stripped out by `_sanitize_name`: the Python literal
`'<>:"/\\|?*'`. -/
def invalidChars : List Char := ['<', '>', ':', '"', '/', '\\', '|', '?', '*']

/-- Membership test for the character set of Python's `strip('. ')`. -/
def isDotSpace (c : Char) : Bool := c == '.' || c == ' '

/-- Embeds Python's `str.strip('. ')`: remove leading and trailing
characters drawn from the set, keeping the middle intact. -/
def stripEnds (l : List Char) : List Char :=
  List.rdropWhile isDotSpace (List.dropWhile isDotSpace l)

/-- Embeds `ProjectManager._sanitize_name`: drop the illegal characters,
strip leading/trailing dots and spaces, and reject the result if it is
empty or longer than 255 characters (`None` in Python, `none` here). -/
def sanitize_name (name : String) : Option String :=
  let filtered := name.data.filter (fun c => !(invalidChars.contains c))
  let stripped := stripEnds filtered
  if stripped = [] ∨ stripped.length > 255 then none
  else some (String.mk stripped)

/-! ## Filesystem model -/

/-- A filesystem path, as its list of components. -/
abbrev FsPath := List String

/-- The filesystem: the set (as a list) of paths that exist. -/
abbrev FS := List FsPath

/-- Whether `root` is an ancestor-or-equal of `q`, component-wise. -/
def pathUnder : FsPath → FsPath → Bool
  | [], _ => true
  | _ :: _, [] => false
  | a :: as, b :: bs => a == b && pathUnder as bs

/-- Embeds `os.makedirs(p, exist_ok=True)` for the single path recorded. -/
def mkdirP (fs : FS) (p : FsPath) : FS := if p ∈ fs then fs else p :: fs

/-- Embeds `shutil.rmtree p`: every path at or below `p` disappears. -/
def rmtree (fs : FS) (p : FsPath) : FS := fs.filter (fun q => !(pathUnder p q))

/-- Embeds `os.rename old new` applied to a directory: every path at or
below `old` is re-rooted at `new`. -/
def fsRename (fs : FS) (old new : FsPath) : FS :=
  fs.map (fun q => if pathUnder old q then new ++ q.drop old.length else q)

/-- The path `f"projects/{name}"` used by both create paths. -/
def projectsPath (name : String) : FsPath := ["projects", name]

/-! ## Project registry (`src/database/models.py`) -/

/-- One row of the `projects` table (see `ensure_database_exists`); the
timestamp and `settings` columns are not modelled. -/
structure ProjectRow where
  id : Nat
  name : String
  project_path : FsPath
deriving DecidableEq

/-- The `projects` table. -/
abbrev Registry := List ProjectRow

/-- The `name` column of the registry, in row order. -/
def regNames (reg : Registry) : List String := reg.map (·.name)

/-- The next `AUTOINCREMENT` id for a table whose ids are `ids`. -/
def nextId (ids : List Nat) : Nat := ids.foldr max 0 + 1

/-- Result record for the create-project operations: the Python
`(success, message, project_id)` tuple plus the updated registry and
filesystem. -/
structure RegCreateOut where
  ok : Bool
  msg : String
  projectId : Option Nat
  reg : Registry
  fs : FS
deriving DecidableEq

/-- Embeds `DatabaseManager.create_project`: build `projects/{name}` with
`os.makedirs(..., exist_ok=True)`, then insert the row.  The `UNIQUE`
constraint on `name` raises `sqlite3.IntegrityError` exactly when the name
is already present; the `fault` flag models the remaining
`except Exception` branch (a forced storage failure of the insert).
Note that on either failure the directory just created is left behind:
this function performs no cleanup. -/
def DatabaseManager.create_project (fault : Bool) (reg : Registry) (fs : FS)
    (name : String) : RegCreateOut :=
  let project_path := projectsPath name
  let fs1 := mkdirP fs project_path
  if name ∈ regNames reg then
    ⟨false, "A project with this name already exists", none, reg, fs1⟩
  else if fault then
    ⟨false, "Error creating project: forced storage failure", none, reg, fs1⟩
  else
    let pid := nextId (reg.map (·.id))
    ⟨true, "Project created successfully", some pid,
      reg ++ [⟨pid, name, project_path⟩], fs1⟩

/-- The paths laid down by `ProjectManager._create_project_structure`: the
project root, the four standard subdirectories, and the `project.json`
manifest. -/
def projectStructurePaths (root : FsPath) : List FsPath :=
  [root, root ++ ["sources"], root ++ ["output"], root ++ ["temp"],
   root ++ ["cache"], root ++ ["project.json"]]

/-- Embeds `ProjectManager.create_project`: sanitise the name, refuse when
the target directory already exists, build the directory structure, then
delegate the row insert to `DatabaseManager.create_project`; when the row
insert fails the freshly created tree is removed with `shutil.rmtree`. -/
def ProjectManager.create_project (fault : Bool) (reg : Registry) (fs : FS)
    (name : String) : RegCreateOut :=
  match sanitize_name name with
  | none => ⟨false, "Invalid project name", none, reg, fs⟩
  | some safe_name =>
    let project_path := projectsPath safe_name
    if project_path ∈ fs then
      ⟨false, "Project already exists", none, reg, fs⟩
    else
      let fs1 := (projectStructurePaths project_path).foldl mkdirP fs
      let out := DatabaseManager.create_project fault reg fs1 safe_name
      if out.ok then out
      else ⟨false, out.msg, none, out.reg, rmtree out.fs project_path⟩

/-- Result record for the row-update rename: the Python
`(success, message)` tuple plus the updated registry. -/
structure RegRenameOut where
  ok : Bool
  msg : String
  reg : Registry
deriving DecidableEq

/-- Embeds `DatabaseManager.rename_project`: a bare
`UPDATE projects SET name, project_path WHERE id`.  When the id matches no
row the statement updates nothing and still reports success; the `UNIQUE`
constraint fires exactly when a *different* row already holds the new
name, and the failed statement leaves the table unchanged. -/
def DatabaseManager.rename_project (reg : Registry) (project_id : Nat)
    (new_name : String) (new_path : FsPath) : RegRenameOut :=
  if (reg.find? (fun r => r.id == project_id)).isSome then
    if reg.any (fun r => r.id != project_id && r.name == new_name) then
      ⟨false, "A project with this name already exists", reg⟩
    else
      ⟨true, "Project renamed successfully",
        reg.map (fun r =>
          if r.id == project_id then ⟨r.id, new_name, new_path⟩ else r)⟩
  else
    ⟨true, "Project renamed successfully", reg⟩

/-- Result record for delete-project: `(success, message)` plus the
updated registry and filesystem. -/
structure RegDeleteOut where
  ok : Bool
  msg : String
  reg : Registry
  fs : FS
deriving DecidableEq

/-- Embeds `DatabaseManager.delete_project`: look the row up, delete it,
then `shutil.rmtree(project_path, ignore_errors=True)`. -/
def DatabaseManager.delete_project (reg : Registry) (fs : FS)
    (project_id : Nat) : RegDeleteOut :=
  match reg.find? (fun r => r.id == project_id) with
  | some row =>
      ⟨true, "Project deleted successfully",
        reg.filter (fun r => r.id != project_id), rmtree fs row.project_path⟩
  | none => ⟨false, "Project not found", reg, fs⟩

/-- Embeds `DatabaseManager.get_project_by_name`:
`SELECT * FROM projects WHERE name = ?` (first matching row). -/
def DatabaseManager.get_project_by_name (reg : Registry) (name : String) :
    Option ProjectRow :=
  reg.find? (fun r => r.name == name)

/-- Result record for the full rename operation. -/
structure RenameOut where
  ok : Bool
  msg : String
  reg : Registry
  fs : FS
deriving DecidableEq

/-- Modelled from the spec: the RenameProject operation itself (directory
rename with rollback) is not among the source files under `src/` — the GUI
invokes a `rename_project` handler that is nowhere defined there, and only
the row-update callee `DatabaseManager.rename_project` is present.
Following the spec's words: look the project up (absent id fails with a
not-found result), compute the new path from the new name, rename the
directory, then update the row via `DatabaseManager.rename_project`; if
the row update fails, the directory rename is rolled back by renaming it
back to the original path.  The directory rename itself succeeds exactly
when the old directory exists and nothing lives at or below the new path
(`os.rename` semantics); otherwise the operation fails as an I/O failure
with the state untouched. -/
def RenameProject (reg : Registry) (fs : FS) (project_id : Nat)
    (new_name : String) : RenameOut :=
  match reg.find? (fun r => r.id == project_id) with
  | none => ⟨false, "Project not found", reg, fs⟩
  | some row =>
    let new_path := projectsPath new_name
    if row.project_path ∈ fs ∧ ∀ q ∈ fs, pathUnder new_path q = false then
      let fs1 := fsRename fs row.project_path new_path
      let out := DatabaseManager.rename_project reg project_id new_name new_path
      if out.ok then ⟨true, out.msg, out.reg, fs1⟩
      else ⟨false, out.msg, out.reg, fsRename fs1 new_path row.project_path⟩
    else ⟨false, "Error renaming project: directory rename failed", reg, fs⟩

/-! ## Per-project store (`src/database/project_db.py`) -/

/-- One row of the `media_files` table; timestamps and `metadata` are not
modelled. -/
structure MediaFile where
  id : Nat
  file_name : String
  file_path : String
  file_type : String
  duration : Option Rat
deriving DecidableEq

/-- One row of the `timeline` table; timestamps are not modelled. -/
structure TimelineRow where
  id : Nat
  media_id : Nat
  start_time : Rat
  end_time : Rat
  track_number : Int
  position : Rat
deriving DecidableEq

/-- One row of the `effects` table; the timestamp and `parameters` columns
are not modelled. -/
structure EffectRow where
  id : Nat
  timeline_id : Nat
  effect_type : String
  start_time : Option Rat
  end_time : Option Rat
deriving DecidableEq

/-- The three tables of one project's `project.db` that the modelled
operations touch (the `project_settings` table is not modelled). -/
structure Store where
  media_files : List MediaFile
  timeline : List TimelineRow
  effects : List EffectRow
deriving DecidableEq

/-- Result record for store operations returning
`(success, message, rowid)`. -/
structure StoreIdOut where
  ok : Bool
  msg : String
  rowId : Option Nat
  store : Store
deriving DecidableEq

/-- Result record for store operations returning `(success, message)`. -/
structure StoreOut where
  ok : Bool
  msg : String
  store : Store
deriving DecidableEq

/-- Embeds `ProjectDatabase.add_media_file`: a plain insert. -/
def ProjectDatabase.add_media_file (s : Store)
    (file_name file_path file_type : String) (duration : Option Rat) :
    StoreIdOut :=
  let mid := nextId (s.media_files.map (·.id))
  ⟨true, "Media file added successfully", some mid,
    ⟨s.media_files ++ [⟨mid, file_name, file_path, file_type, duration⟩],
     s.timeline, s.effects⟩⟩

/-- Embeds `ProjectDatabase.add_timeline_item`.  Because the connection
never enables `PRAGMA foreign_keys`, the FOREIGN KEY declared on
`media_id` is not checked: the insert succeeds even when `media_id`
matches no `media_files` row. -/
def ProjectDatabase.add_timeline_item (s : Store) (media_id : Nat)
    (start_time end_time : Rat) (track_number : Int) (position : Rat) :
    StoreIdOut :=
  let tid := nextId (s.timeline.map (·.id))
  ⟨true, "Timeline item added successfully", some tid,
    ⟨s.media_files,
     s.timeline ++ [⟨tid, media_id, start_time, end_time, track_number, position⟩],
     s.effects⟩⟩

/-- Embeds `ProjectDatabase.add_effect`.  As with the timeline insert, the
FOREIGN KEY on `timeline_id` is not checked at run time. -/
def ProjectDatabase.add_effect (s : Store) (timeline_id : Nat)
    (effect_type : String) (start_time end_time : Option Rat) : StoreIdOut :=
  let eid := nextId (s.effects.map (·.id))
  ⟨true, "Effect added successfully", some eid,
    ⟨s.media_files, s.timeline,
     s.effects ++ [⟨eid, timeline_id, effect_type, start_time, end_time⟩]⟩⟩

/-- Embeds `ProjectDatabase.delete_media_file`:
`DELETE FROM media_files WHERE id = ?`.  With foreign-key enforcement off
the declared `ON DELETE CASCADE` never runs, so the `timeline` and
`effects` tables are untouched; and a `DELETE` matching no row is still a
success. -/
def ProjectDatabase.delete_media_file (s : Store) (file_id : Nat) : StoreOut :=
  ⟨true, "Media file deleted successfully",
    ⟨s.media_files.filter (fun m => m.id != file_id), s.timeline, s.effects⟩⟩

/-- Embeds `ProjectDatabase.delete_timeline_item`: again only the named
rows of `timeline` go; the cascade to `effects` is inert. -/
def ProjectDatabase.delete_timeline_item (s : Store) (item_id : Nat) :
    StoreOut :=
  ⟨true, "Timeline item deleted successfully",
    ⟨s.media_files, s.timeline.filter (fun t => t.id != item_id), s.effects⟩⟩

/-- Embeds `ProjectDatabase.delete_effect`. -/
def ProjectDatabase.delete_effect (s : Store) (effect_id : Nat) : StoreOut :=
  ⟨true, "Effect deleted successfully",
    ⟨s.media_files, s.timeline, s.effects.filter (fun e => e.id != effect_id)⟩⟩

/-- One row of the result set of `ProjectDatabase.get_timeline_items`:
`t.*` joined with the media file's `file_name`, `file_type`, `duration`. -/
structure TimelineEntry where
  id : Nat
  media_id : Nat
  start_time : Rat
  end_time : Rat
  track_number : Int
  position : Rat
  file_name : String
  file_type : String
  duration : Option Rat
deriving DecidableEq

/-- Builds the joined row for a timeline row and its media file. -/
def mkEntry (t : TimelineRow) (m : MediaFile) : TimelineEntry :=
  ⟨t.id, t.media_id, t.start_time, t.end_time, t.track_number, t.position,
   m.file_name, m.file_type, m.duration⟩

/-- The inner join `timeline t JOIN media_files m ON t.media_id = m.id`:
a timeline row joins with the media row carrying its `media_id` (ids are
primary keys, so at most one row matches), and a row whose `media_id`
matches nothing contributes no result row. -/
def timelineJoin (s : Store) : List TimelineEntry :=
  s.timeline.filterMap (fun t =>
    (s.media_files.find? (fun m => m.id == t.media_id)).map (mkEntry t))

/-- The `ORDER BY t.track_number, t.position` comparison. -/
def entryLE (a b : TimelineEntry) : Prop :=
  a.track_number < b.track_number ∨
    (a.track_number = b.track_number ∧ a.position ≤ b.position)

instance : DecidableRel entryLE := fun a b => by
  unfold entryLE
  exact inferInstance

instance : IsTotal TimelineEntry entryLE := by
  constructor
  intro a b
  rcases lt_trichotomy a.track_number b.track_number with h | h | h
  · exact Or.inl (Or.inl h)
  · rcases le_total a.position b.position with hp | hp
    · exact Or.inl (Or.inr ⟨h, hp⟩)
    · exact Or.inr (Or.inr ⟨h.symm, hp⟩)
  · exact Or.inr (Or.inl h)

instance : IsTrans TimelineEntry entryLE := by
  constructor
  intro a b c hab hbc
  rcases hab with hab | ⟨hab, hab2⟩
  · rcases hbc with hbc | ⟨hbc, _⟩
    · exact Or.inl (hab.trans hbc)
    · exact Or.inl (hbc ▸ hab)
  · rcases hbc with hbc | ⟨hbc, hbc2⟩
    · exact Or.inl (hab ▸ hbc)
    · exact Or.inr ⟨hab.trans hbc, hab2.trans hbc2⟩

/-- Embeds `ProjectDatabase.get_timeline_items`: the join, ordered by
`(track_number, position)` ascending. -/
def ProjectDatabase.get_timeline_items (s : Store) : List TimelineEntry :=
  List.insertionSort entryLE (timelineJoin s)

/-- The `ORDER BY start_time` comparison for effects: SQLite sorts `NULL`
before every value in ascending order. -/
def effectLEb (a b : EffectRow) : Bool :=
  match a.start_time, b.start_time with
  | none, _ => true
  | some _, none => false
  | some x, some y => x ≤ y

/-- Embeds `ProjectDatabase.get_effects_for_timeline_item`:
`SELECT * FROM effects WHERE timeline_id = ? ORDER BY start_time`. -/
def ProjectDatabase.get_effects_for_timeline_item (s : Store)
    (timeline_id : Nat) : List EffectRow :=
  List.insertionSort (fun a b => effectLEb a b = true)
    (s.effects.filter (fun e => e.timeline_id == timeline_id))

/-! ## Demonstration states, built through the operations themselves -/

/-- A store holding one media file (id 1), obtained by one
`add_media_file` call on the empty store. -/
def storeWithMedia : Store :=
  (ProjectDatabase.add_media_file ⟨[], [], []⟩ "clip.mp4" "sources/clip.mp4"
    "video" none).store

/-- `storeWithMedia` plus a placement at `(track 1, position 5)` (id 1). -/
def orderStore1 : Store :=
  (ProjectDatabase.add_timeline_item storeWithMedia 1 0 1 1 5).store

/-- `orderStore1` plus a placement at `(track 0, position 10)` (id 2). -/
def orderStore2 : Store :=
  (ProjectDatabase.add_timeline_item orderStore1 1 0 1 0 10).store

/-- `orderStore2` plus a placement at `(track 1, position 2)` (id 3). -/
def orderStore3 : Store :=
  (ProjectDatabase.add_timeline_item orderStore2 1 0 1 1 2).store

/-- `storeWithMedia` plus placement `P1` (id 1, track 0) of media 1. -/
def cascadeStore1 : Store :=
  (ProjectDatabase.add_timeline_item storeWithMedia 1 0 1 0 0).store

/-- `cascadeStore1` plus placement `P2` (id 2, track 1) of media 1. -/
def cascadeStore2 : Store :=
  (ProjectDatabase.add_timeline_item cascadeStore1 1 0 1 1 0).store

/-- `cascadeStore2` plus effect `E1` (id 1) attached to placement 1. -/
def cascadeStore : Store :=
  (ProjectDatabase.add_effect cascadeStore2 1 "fade" none none).store

/-! ## Helper lemmas -/

theorem stripEnds_mem {x : Char} {l : List Char} (h : x ∈ stripEnds l) :
    x ∈ l := by
  unfold stripEnds at h
  have h1 : x ∈ List.dropWhile isDotSpace l :=
    (List.rdropWhile_prefix isDotSpace _).sublist.subset h
  exact (List.dropWhile_suffix isDotSpace).sublist.subset h1

theorem stripEnds_idem (l : List Char) :
    stripEnds (stripEnds l) = stripEnds l := by
  unfold stripEnds
  set y := List.dropWhile isDotSpace l with hy
  have hyfix : List.dropWhile isDotSpace y = y := by
    rw [hy]
    exact List.dropWhile_idempotent isDotSpace l
  have hdrop : List.dropWhile isDotSpace (List.rdropWhile isDotSpace y)
      = List.rdropWhile isDotSpace y := by
    obtain ⟨t, ht⟩ := List.rdropWhile_prefix isDotSpace y
    rcases hz : List.rdropWhile isDotSpace y with _ | ⟨a, z⟩
    · simp
    · rw [hz] at ht
      have hya : y = a :: (z ++ t) := by
        rw [← ht]
        simp
      have ha : isDotSpace a = false := by
        by_contra hcon
        have ha' : isDotSpace a = true := by
          simpa using hcon
        rw [hya, List.dropWhile_cons, ha', if_pos rfl] at hyfix
        have hlen : (z ++ t).length + 1 ≤ (z ++ t).length := by
          calc (z ++ t).length + 1 = (a :: (z ++ t)).length := by simp
            _ = (List.dropWhile isDotSpace (z ++ t)).length := by rw [hyfix]
            _ ≤ (z ++ t).length :=
                (List.dropWhile_sublist (p := isDotSpace) (l := z ++ t)).length_le
        omega
      rw [List.dropWhile_cons, ha]
      simp
  rw [hdrop, List.rdropWhile_idempotent]

/-- C8: SanitizeName is idempotent: composing `sanitize_name` with itself
(through `Option.bind`) gives `sanitize_name` again; in particular a valid
sanitised name sanitises to itself. -/
theorem sanitize_name_idempotent (s : String) :
    Option.bind (sanitize_name s) sanitize_name = sanitize_name s := by
  by_cases h :
      stripEnds (s.data.filter (fun c => !(invalidChars.contains c))) = []
      ∨ (stripEnds (s.data.filter (fun c => !(invalidChars.contains c)))).length
          > 255
  · have hs : sanitize_name s = none := by
      simp only [sanitize_name]
      rw [if_pos h]
    rw [hs]
    rfl
  · have hs : sanitize_name s = some (String.mk
        (stripEnds (s.data.filter (fun c => !(invalidChars.contains c))))) := by
      simp only [sanitize_name]
      rw [if_neg h]
    rw [hs]
    set st := stripEnds (s.data.filter (fun c => !(invalidChars.contains c)))
      with hst
    show sanitize_name (String.mk st) = some (String.mk st)
    have hfilter : st.filter (fun c => !(invalidChars.contains c)) = st := by
      rw [List.filter_eq_self]
      intro c hc
      have hc' : c ∈ s.data.filter (fun c => !(invalidChars.contains c)) :=
        stripEnds_mem (hst ▸ hc)
      exact (List.mem_filter.mp hc').2
    have hstrip : stripEnds st = st := by
      rw [hst]
      exact stripEnds_idem _
    simp only [sanitize_name]
    show (if stripEnds (st.filter (fun c => !(invalidChars.contains c))) = []
        ∨ (stripEnds (st.filter (fun c => !(invalidChars.contains c)))).length
            > 255
      then none
      else some (String.mk
        (stripEnds (st.filter (fun c => !(invalidChars.contains c))))))
      = some (String.mk st)
    rw [hfilter, hstrip, if_neg h]

/-! ## Store-side claims -/

/-- C1: evaluation of the cascade scenario on the code as it runs.
Deleting media file 1 from a store holding media `M` (id 1), placements
`P1`, `P2` (ids 1, 2) of `M`, and effect `E1` (id 1) on `P1` reports
success and makes `P1`/`P2` disappear from `get_timeline_items` — but only
because the `JOIN` hides them: both timeline rows physically survive, and
`get_effects_for_timeline_item 1` still lists `E1`.  This contradicts the
claimed cascade (the declared `ON DELETE CASCADE` never runs because
`PRAGMA foreign_keys` is never enabled). -/
theorem delete_media_cascade_divergence :
    (ProjectDatabase.delete_media_file cascadeStore 1).ok = true
    ∧ ProjectDatabase.get_timeline_items
        (ProjectDatabase.delete_media_file cascadeStore 1).store = []
    ∧ (ProjectDatabase.delete_media_file cascadeStore 1).store.timeline
        = cascadeStore.timeline
    ∧ (ProjectDatabase.delete_media_file cascadeStore 1).store.timeline ≠ []
    ∧ ProjectDatabase.get_effects_for_timeline_item
        (ProjectDatabase.delete_media_file cascadeStore 1).store 1
        = [⟨1, 1, "fade", none, none⟩] := by
  decide

/-- C5: evaluation of `add_timeline_item` with a dangling `media_id` on
the code as it runs.  On a store with no media files at all, inserting a
placement for media id 7 succeeds and the row is stored, instead of the
claimed `NotFound` failure: with `PRAGMA foreign_keys` never enabled, the
declared FOREIGN KEY on `media_id` is not checked. -/
theorem add_timeline_item_dangling_media :
    (ProjectDatabase.add_timeline_item ⟨[], [], []⟩ 7 0 1 0 0).ok = true
    ∧ (ProjectDatabase.add_timeline_item ⟨[], [], []⟩ 7 0 1 0 0).msg
        = "Timeline item added successfully"
    ∧ (ProjectDatabase.add_timeline_item ⟨[], [], []⟩ 7 0 1 0 0).store.timeline
        = [⟨1, 7, 0, 1, 0, 0⟩] := by
  decide

/-- C9: deleting a media file, timeline item or effect whose id matches no
row still reports success (the `DELETE` statement simply matches nothing)
and leaves the store unchanged. -/
theorem delete_missing_id_succeeds (s : Store) (i : Nat) :
    ((∀ m ∈ s.media_files, m.id ≠ i) →
      ProjectDatabase.delete_media_file s i
        = ⟨true, "Media file deleted successfully", s⟩)
    ∧ ((∀ t ∈ s.timeline, t.id ≠ i) →
      ProjectDatabase.delete_timeline_item s i
        = ⟨true, "Timeline item deleted successfully", s⟩)
    ∧ ((∀ e ∈ s.effects, e.id ≠ i) →
      ProjectDatabase.delete_effect s i
        = ⟨true, "Effect deleted successfully", s⟩) := by
  obtain ⟨ms, ts, es⟩ := s
  refine ⟨fun h => ?_, fun h => ?_, fun h => ?_⟩
  · simp only [ProjectDatabase.delete_media_file]
    rw [List.filter_eq_self.mpr]
    intro m hm
    simpa [bne_iff_ne] using h m hm
  · simp only [ProjectDatabase.delete_timeline_item]
    rw [List.filter_eq_self.mpr]
    intro t ht
    simpa [bne_iff_ne] using h t ht
  · simp only [ProjectDatabase.delete_effect]
    rw [List.filter_eq_self.mpr]
    intro e he
    simpa [bne_iff_ne] using h e he

/-- Witness for `delete_missing_id_succeeds` at a concrete store (one
media file with id 1) and the absent id 99. -/
theorem delete_missing_id_succeeds_witness :
    (∀ m ∈ storeWithMedia.media_files, m.id ≠ 99)
    ∧ (∀ t ∈ storeWithMedia.timeline, t.id ≠ 99)
    ∧ (∀ e ∈ storeWithMedia.effects, e.id ≠ 99)
    ∧ ProjectDatabase.delete_media_file storeWithMedia 99
        = ⟨true, "Media file deleted successfully", storeWithMedia⟩
    ∧ ProjectDatabase.delete_timeline_item storeWithMedia 99
        = ⟨true, "Timeline item deleted successfully", storeWithMedia⟩
    ∧ ProjectDatabase.delete_effect storeWithMedia 99
        = ⟨true, "Effect deleted successfully", storeWithMedia⟩ :=
  ⟨by decide, by decide, by decide,
    (delete_missing_id_succeeds storeWithMedia 99).1 (by decide),
    (delete_missing_id_succeeds storeWithMedia 99).2.1 (by decide),
    (delete_missing_id_succeeds storeWithMedia 99).2.2 (by decide)⟩

/-- C4: `get_timeline_items` is sorted ascending by
`(track_number, position)`, its rows are exactly the join of the timeline
with the media table (so each row carries its media's `file_name`,
`file_type` and `duration`), and on the concrete store with placements
`(track 1, pos 5)`, `(track 0, pos 10)`, `(track 1, pos 2)` it returns
them in the order `(0, 10)`, `(1, 2)`, `(1, 5)`. -/
theorem get_timeline_items_ordering :
    (∀ s : Store, List.Sorted entryLE (ProjectDatabase.get_timeline_items s))
    ∧ (∀ s : Store,
        List.Perm (ProjectDatabase.get_timeline_items s) (timelineJoin s))
    ∧ ProjectDatabase.get_timeline_items orderStore3
        = [⟨2, 1, 0, 1, 0, 10, "clip.mp4", "video", none⟩,
           ⟨3, 1, 0, 1, 1, 2, "clip.mp4", "video", none⟩,
           ⟨1, 1, 0, 1, 1, 5, "clip.mp4", "video", none⟩] :=
  ⟨fun s => List.sorted_insertionSort entryLE (timelineJoin s),
   fun s => List.perm_insertionSort entryLE (timelineJoin s),
   by decide⟩

/-- C10: every row returned by `get_timeline_items` comes from a timeline
row joined with an actually existing media file whose id equals the row's
`media_id`; timeline rows whose `media_id` matches no media file therefore
contribute nothing to the listing (they are silently omitted by the
`JOIN`), and no error is reported for them. -/
theorem get_timeline_items_integrity (s : Store) (e : TimelineEntry)
    (he : e ∈ ProjectDatabase.get_timeline_items s) :
    ∃ t ∈ s.timeline, ∃ m ∈ s.media_files,
      m.id = t.media_id ∧ e = mkEntry t m := by
  have hj : e ∈ timelineJoin s :=
    (List.perm_insertionSort entryLE (timelineJoin s)).mem_iff.mp he
  rw [timelineJoin, List.mem_filterMap] at hj
  obtain ⟨t, ht, hsome⟩ := hj
  rw [Option.map_eq_some'] at hsome
  obtain ⟨m, hm, hme⟩ := hsome
  refine ⟨t, ht, m, List.mem_of_find?_eq_some hm, ?_, hme.symm⟩
  have := List.find?_some hm
  simpa using this

/-- Witness for `get_timeline_items_integrity` at a concrete store (one
media file, one placement) and its single returned row. -/
theorem get_timeline_items_integrity_witness :
    (⟨1, 1, 0, 1, 1, 5, "clip.mp4", "video", none⟩ : TimelineEntry)
      ∈ ProjectDatabase.get_timeline_items orderStore1
    ∧ ∃ t ∈ orderStore1.timeline, ∃ m ∈ orderStore1.media_files,
        m.id = t.media_id
        ∧ (⟨1, 1, 0, 1, 1, 5, "clip.mp4", "video", none⟩ : TimelineEntry)
            = mkEntry t m :=
  ⟨by decide,
   get_timeline_items_integrity orderStore1
     ⟨1, 1, 0, 1, 1, 5, "clip.mp4", "video", none⟩ (by decide)⟩

/-! ## Registry-side helper lemmas -/

theorem pathUnder_append (p t : FsPath) : pathUnder p (p ++ t) = true := by
  induction p with
  | nil => rfl
  | cons a as ih => simp [pathUnder, ih]

theorem pathUnder_refl (p : FsPath) : pathUnder p p = true := by
  simpa using pathUnder_append p []

theorem pathUnder_extract {p q : FsPath} (h : pathUnder p q = true) :
    p ++ q.drop p.length = q := by
  induction p generalizing q with
  | nil => simp
  | cons a as ih =>
    cases q with
    | nil => simp [pathUnder] at h
    | cons b bs =>
      simp only [pathUnder, Bool.and_eq_true, beq_iff_eq] at h
      obtain ⟨hab, hub⟩ := h
      subst hab
      simpa using ih hub

theorem mem_rmtree_iff {fs : FS} {p q : FsPath} :
    q ∈ rmtree fs p ↔ q ∈ fs ∧ pathUnder p q = false := by
  unfold rmtree
  simp [List.mem_filter]

theorem mem_mkdirP {fs : FS} {p q : FsPath} (h : q ∈ mkdirP fs p) :
    q = p ∨ q ∈ fs := by
  unfold mkdirP at h
  split at h
  · exact Or.inr h
  · rcases List.mem_cons.mp h with h | h
    · exact Or.inl h
    · exact Or.inr h

theorem mem_foldl_mkdirP {ps : List FsPath} {fs : FS} {q : FsPath}
    (h : q ∈ ps.foldl mkdirP fs) : q ∈ fs ∨ q ∈ ps := by
  induction ps generalizing fs with
  | nil => exact Or.inl h
  | cons p ps ih =>
    rcases ih (by simpa using h) with h1 | h1
    · rcases mem_mkdirP h1 with h2 | h2
      · exact Or.inr (by simp [h2])
      · exact Or.inl h2
    · exact Or.inr (List.mem_cons_of_mem _ h1)

theorem structurePaths_under {root q : FsPath}
    (h : q ∈ projectStructurePaths root) : pathUnder root q = true := by
  simp only [projectStructurePaths, List.mem_cons, List.mem_singleton,
    List.not_mem_nil, or_false] at h
  rcases h with h | h | h | h | h | h
  · rw [h]; exact pathUnder_refl root
  all_goals rw [h]; exact pathUnder_append root _

/-! ## Registry-side claims -/

/-- C2: when `ProjectManager.create_project` fails after having created
the project's directory tree (the target directory did not exist before
the call, so the tree was created during it), nothing at or below the
project's directory survives in the resulting filesystem: the cleanup
`shutil.rmtree` removes the whole created tree. -/
theorem create_project_cleanup_on_failure
    (fault : Bool) (reg : Registry) (fs : FS) (name safe : String)
    (hsan : sanitize_name name = some safe)
    (hnew : projectsPath safe ∉ fs)
    (hfail : (ProjectManager.create_project fault reg fs name).ok = false) :
    ∀ q, pathUnder (projectsPath safe) q = true →
      q ∉ (ProjectManager.create_project fault reg fs name).fs := by
  intro q hq
  simp only [ProjectManager.create_project, hsan] at hfail ⊢
  rw [if_neg hnew] at hfail ⊢
  by_cases hok : (DatabaseManager.create_project fault reg
      ((projectStructurePaths (projectsPath safe)).foldl mkdirP fs) safe).ok
  · rw [if_pos hok] at hfail
    rw [hfail] at hok
    cases hok
  · rw [if_neg hok]
    intro hmem
    exact absurd (mem_rmtree_iff.mp hmem).2 (by simp [hq])

/-- Witness for `create_project_cleanup_on_failure`: creating `"X"` over
an empty registry and filesystem with a forced row-insert failure fails,
and no `projects/X` directory remains. -/
theorem create_project_cleanup_on_failure_witness :
    sanitize_name "X" = some "X"
    ∧ projectsPath "X" ∉ ([] : FS)
    ∧ (ProjectManager.create_project true [] [] "X").ok = false
    ∧ projectsPath "X" ∉ (ProjectManager.create_project true [] [] "X").fs :=
  ⟨by decide, by decide, by decide,
    create_project_cleanup_on_failure true [] [] "X" "X" (by decide)
      (by decide) (by decide) (projectsPath "X") (by decide)⟩

theorem db_create_reg_cases (fault : Bool) (reg : Registry) (fs : FS)
    (name : String) :
    (DatabaseManager.create_project fault reg fs name).reg = reg
    ∨ (name ∉ regNames reg
       ∧ (DatabaseManager.create_project fault reg fs name).reg
          = reg ++ [⟨nextId (reg.map (·.id)), name, projectsPath name⟩]) := by
  simp only [DatabaseManager.create_project]
  by_cases hname : name ∈ regNames reg
  · rw [if_pos hname]
    exact Or.inl rfl
  · rw [if_neg hname]
    by_cases hf : fault
    · rw [if_pos hf]
      exact Or.inl rfl
    · rw [if_neg hf]
      exact Or.inr ⟨hname, rfl⟩

theorem pm_create_reg_cases (fault : Bool) (reg : Registry) (fs : FS)
    (name : String) :
    (ProjectManager.create_project fault reg fs name).reg = reg
    ∨ ∃ safe, safe ∉ regNames reg
        ∧ (ProjectManager.create_project fault reg fs name).reg
            = reg ++ [⟨nextId (reg.map (·.id)), safe, projectsPath safe⟩] := by
  cases hs : sanitize_name name with
  | none => simp [ProjectManager.create_project, hs]
  | some safe =>
    simp only [ProjectManager.create_project, hs]
    by_cases hex : projectsPath safe ∈ fs
    · rw [if_pos hex]
      exact Or.inl rfl
    · rw [if_neg hex]
      have hreg : (if (DatabaseManager.create_project fault reg
            ((projectStructurePaths (projectsPath safe)).foldl mkdirP fs)
            safe).ok
          then DatabaseManager.create_project fault reg
            ((projectStructurePaths (projectsPath safe)).foldl mkdirP fs) safe
          else ⟨false, (DatabaseManager.create_project fault reg
              ((projectStructurePaths (projectsPath safe)).foldl mkdirP fs)
              safe).msg, none,
            (DatabaseManager.create_project fault reg
              ((projectStructurePaths (projectsPath safe)).foldl mkdirP fs)
              safe).reg,
            rmtree (DatabaseManager.create_project fault reg
              ((projectStructurePaths (projectsPath safe)).foldl mkdirP fs)
              safe).fs (projectsPath safe)⟩).reg
          = (DatabaseManager.create_project fault reg
              ((projectStructurePaths (projectsPath safe)).foldl mkdirP fs)
              safe).reg := by
        split
        · rfl
        · rfl
      rw [hreg]
      rcases db_create_reg_cases fault reg
          ((projectStructurePaths (projectsPath safe)).foldl mkdirP fs) safe
        with h | ⟨hn, h⟩
      · exact Or.inl h
      · exact Or.inr ⟨safe, hn, h⟩

/-- C3: creating a project whose (already sanitised) name is present in
the registry always fails with an already-exists message and adds no path
to the filesystem; and both `create_project` and `delete_project` preserve
distinctness of the registry's names, so the names of the successfully
created, undeleted projects are pairwise distinct. -/
theorem create_project_name_unique :
    (∀ (fault : Bool) (reg : Registry) (fs : FS) (name : String),
      sanitize_name name = some name → name ∈ regNames reg →
        (ProjectManager.create_project fault reg fs name).ok = false
        ∧ ((ProjectManager.create_project fault reg fs name).msg
              = "Project already exists"
           ∨ (ProjectManager.create_project fault reg fs name).msg
              = "A project with this name already exists")
        ∧ ∀ q ∈ (ProjectManager.create_project fault reg fs name).fs, q ∈ fs)
    ∧ (∀ (fault : Bool) (reg : Registry) (fs : FS) (name : String),
        (regNames reg).Nodup →
          (regNames (ProjectManager.create_project fault reg fs name).reg).Nodup)
    ∧ (∀ (reg : Registry) (fs : FS) (pid : Nat),
        (regNames reg).Nodup →
          (regNames (DatabaseManager.delete_project reg fs pid).reg).Nodup) := by
  refine ⟨?_, ?_, ?_⟩
  · intro fault reg fs name hsan hname
    simp only [ProjectManager.create_project, hsan]
    by_cases hex : projectsPath name ∈ fs
    · rw [if_pos hex]
      exact ⟨rfl, Or.inl rfl, fun q hq => hq⟩
    · rw [if_neg hex]
      have hdb : DatabaseManager.create_project fault reg
          ((projectStructurePaths (projectsPath name)).foldl mkdirP fs) name
          = ⟨false, "A project with this name already exists", none, reg,
              mkdirP ((projectStructurePaths (projectsPath name)).foldl
                mkdirP fs) (projectsPath name)⟩ := by
        simp only [DatabaseManager.create_project]
        rw [if_pos hname]
      rw [hdb]
      refine ⟨rfl, Or.inr rfl, ?_⟩
      intro q hq
      obtain ⟨hq1, hq2⟩ := mem_rmtree_iff.mp hq
      rcases mem_mkdirP hq1 with h | h
      · rw [h, pathUnder_refl] at hq2
        cases hq2
      · rcases mem_foldl_mkdirP h with h2 | h2
        · exact h2
        · rw [structurePaths_under h2] at hq2
          cases hq2
  · intro fault reg fs name h
    rcases pm_create_reg_cases fault reg fs name with hc | ⟨safe, hn, hc⟩
    · rw [hc]
      exact h
    · rw [hc]
      have : regNames (reg
            ++ [⟨nextId (reg.map (·.id)), safe, projectsPath safe⟩])
          = regNames reg ++ [safe] := by
        simp [regNames]
      rw [this]
      simp only [List.nodup_append, List.nodup_cons, List.not_mem_nil,
        not_false_eq_true, List.nodup_nil, and_true, true_and,
        List.disjoint_singleton]
      exact ⟨h, hn⟩
  · intro reg fs pid h
    simp only [DatabaseManager.delete_project]
    cases hf : reg.find? (fun r => r.id == pid) with
    | none => exact h
    | some row =>
      have hsub : List.Sublist
          ((reg.filter (fun r => r.id != pid)).map (·.name))
          (reg.map (·.name)) :=
        (List.filter_sublist reg).map _
      exact List.Nodup.sublist hsub h

/-- Witness for `create_project_name_unique` at a concrete registry that
already holds a project named `"A"`. -/
theorem create_project_name_unique_witness :
    sanitize_name "A" = some "A"
    ∧ "A" ∈ regNames [(⟨1, "A", projectsPath "A"⟩ : ProjectRow)]
    ∧ ((ProjectManager.create_project false
          [⟨1, "A", projectsPath "A"⟩] [] "A").ok = false
       ∧ ((ProjectManager.create_project false
            [⟨1, "A", projectsPath "A"⟩] [] "A").msg = "Project already exists"
          ∨ (ProjectManager.create_project false
            [⟨1, "A", projectsPath "A"⟩] [] "A").msg
              = "A project with this name already exists")
       ∧ ∀ q ∈ (ProjectManager.create_project false
            [⟨1, "A", projectsPath "A"⟩] [] "A").fs, q ∈ ([] : FS))
    ∧ (regNames [(⟨1, "A", projectsPath "A"⟩ : ProjectRow)]).Nodup
    ∧ (regNames (ProjectManager.create_project false
        [⟨1, "A", projectsPath "A"⟩] [] "A").reg).Nodup
    ∧ (regNames (DatabaseManager.delete_project
        [⟨1, "A", projectsPath "A"⟩] [] 1).reg).Nodup :=
  ⟨by decide, by decide,
    create_project_name_unique.1 false [⟨1, "A", projectsPath "A"⟩] [] "A"
      (by decide) (by decide),
    by decide,
    create_project_name_unique.2.1 false [⟨1, "A", projectsPath "A"⟩] [] "A"
      (by decide),
    create_project_name_unique.2.2 [⟨1, "A", projectsPath "A"⟩] [] 1
      (by decide)⟩

theorem fsRename_roundtrip (fs : FS) (old new : FsPath)
    (h : ∀ q ∈ fs, pathUnder new q = false) :
    fsRename (fsRename fs old new) new old = fs := by
  induction fs with
  | nil => rfl
  | cons q fs ih =>
    have hq := h q (List.mem_cons_self q fs)
    have ih' := ih (fun r hr => h r (List.mem_cons_of_mem q hr))
    simp only [fsRename, List.map_cons] at ih' ⊢
    rw [ih']
    by_cases hu : pathUnder old q = true
    · rw [if_pos hu, if_pos (pathUnder_append new (q.drop old.length))]
      rw [List.drop_left, pathUnder_extract hu]
    · rw [if_neg hu, if_neg (by simp [hq])]

theorem find_name_of_nodup {reg : Registry} {row : ProjectRow}
    (hnd : (regNames reg).Nodup) (hmem : row ∈ reg) :
    reg.find? (fun r => r.name == row.name) = some row := by
  induction reg with
  | nil => cases hmem
  | cons a l ih =>
    simp only [regNames, List.map_cons, List.nodup_cons] at hnd
    obtain ⟨hnd1, hnd2⟩ := hnd
    rcases List.mem_cons.mp hmem with h | h
    · rw [← h] at hnd1 ⊢
      rw [List.find?_cons_of_pos _ (by simp)]
    · by_cases he : a.name = row.name
      · exact absurd (he ▸ List.mem_map_of_mem (·.name) h) hnd1
      · rw [List.find?_cons_of_neg _ (by simpa using he)]
        exact ih hnd2 h

theorem db_rename_conflict (reg : Registry) (pid : Nat) (nn : String)
    (np : FsPath) (row : ProjectRow)
    (hfind : reg.find? (fun r => r.id == pid) = some row)
    (hconf : reg.any (fun r => r.id != pid && r.name == nn) = true) :
    DatabaseManager.rename_project reg pid nn np
      = ⟨false, "A project with this name already exists", reg⟩ := by
  simp only [DatabaseManager.rename_project]
  rw [if_pos (by simp [hfind]), if_pos hconf]

/-- C6: when the looked-up project's directory rename succeeds (the old
directory exists and nothing occupies the new path) but the registry row
update fails because another project already holds the new name, the full
rename operation fails, the directory is renamed back so the filesystem is
exactly as before, the registry is unchanged, and the original project is
still retrievable by its original name. -/
theorem rename_project_rollback
    (reg : Registry) (fs : FS) (pid : Nat) (nn : String) (row : ProjectRow)
    (hfind : reg.find? (fun r => r.id == pid) = some row)
    (hnd : (regNames reg).Nodup)
    (hold : row.project_path ∈ fs)
    (hnew : ∀ q ∈ fs, pathUnder (projectsPath nn) q = false)
    (hconf : reg.any (fun r => r.id != pid && r.name == nn) = true) :
    (RenameProject reg fs pid nn).ok = false
    ∧ (RenameProject reg fs pid nn).reg = reg
    ∧ (RenameProject reg fs pid nn).fs = fs
    ∧ DatabaseManager.get_project_by_name reg row.name = some row := by
  simp only [RenameProject, hfind]
  rw [if_pos ⟨hold, hnew⟩, db_rename_conflict reg pid nn (projectsPath nn)
    row hfind hconf]
  simp only [Bool.false_eq_true, if_false]
  exact ⟨trivial, trivial,
    fsRename_roundtrip fs row.project_path (projectsPath nn) hnew,
    find_name_of_nodup hnd (List.mem_of_find?_eq_some hfind)⟩

/-- A two-project registry used by the rename witnesses. -/
def demoReg : Registry := [⟨1, "A", projectsPath "A"⟩,
  ⟨2, "B", projectsPath "B"⟩]

/-- Witness for `rename_project_rollback`: renaming project 1 (named
`"A"`, directory present) to `"B"` — a name held by project 2 whose
directory is absent, so the directory rename itself goes through — fails
and restores registry, filesystem and retrievability of `"A"`. -/
theorem rename_project_rollback_witness :
    demoReg.find? (fun r => r.id == 1) = some ⟨1, "A", projectsPath "A"⟩
    ∧ (regNames demoReg).Nodup
    ∧ (⟨1, "A", projectsPath "A"⟩ : ProjectRow).project_path
        ∈ [projectsPath "A"]
    ∧ (∀ q ∈ [projectsPath "A"], pathUnder (projectsPath "B") q = false)
    ∧ demoReg.any (fun r => r.id != 1 && r.name == "B") = true
    ∧ ((RenameProject demoReg [projectsPath "A"] 1 "B").ok = false
       ∧ (RenameProject demoReg [projectsPath "A"] 1 "B").reg = demoReg
       ∧ (RenameProject demoReg [projectsPath "A"] 1 "B").fs
          = [projectsPath "A"]
       ∧ DatabaseManager.get_project_by_name demoReg
          (⟨1, "A", projectsPath "A"⟩ : ProjectRow).name
          = some ⟨1, "A", projectsPath "A"⟩) :=
  ⟨by decide, by decide, by decide, by decide, by decide,
    rename_project_rollback demoReg [projectsPath "A"] 1 "B"
      ⟨1, "A", projectsPath "A"⟩ (by decide) (by decide) (by decide)
      (by decide) (by decide)⟩

/-- C7, counterexample: `"B"` is a name already used by another project
(id 2), yet renaming project 1 to `"B"` over the filesystem in which
project 2's directory occupies `projects/B` — the normal state under the
row/directory invariant — fails with the I/O message of the directory
step, not with the name-conflict result the claim promises for every
taken name. -/
theorem rename_taken_name_not_conflict :
    demoReg.any (fun r => r.id != 1 && r.name == "B") = true
    ∧ (RenameProject demoReg [projectsPath "A", projectsPath "B"] 1 "B").ok
        = false
    ∧ (RenameProject demoReg [projectsPath "A", projectsPath "B"] 1 "B").msg
        = "Error renaming project: directory rename failed"
    ∧ (RenameProject demoReg [projectsPath "A", projectsPath "B"] 1 "B").msg
        ≠ "A project with this name already exists" := by
  decide

/-- C7, amended: the full rename operation never reports success when the
project id is absent or the new name is held by another project.  An
absent id yields the not-found failure; a taken name yields a failure
whose message is the name-conflict one exactly when nothing occupies the
new directory path (the directory rename goes through and the row update
hits the UNIQUE constraint), and the directory-rename I/O failure
otherwise (in particular when the conflicting project's directory already
sits at the new path). -/
theorem rename_project_never_succeeds :
    (∀ (reg : Registry) (fs : FS) (pid : Nat) (nn : String),
      reg.find? (fun r => r.id == pid) = none →
        (RenameProject reg fs pid nn).ok = false
        ∧ (RenameProject reg fs pid nn).msg = "Project not found")
    ∧ (∀ (reg : Registry) (fs : FS) (pid : Nat) (nn : String)
        (row : ProjectRow),
        reg.find? (fun r => r.id == pid) = some row →
        reg.any (fun r => r.id != pid && r.name == nn) = true →
          (RenameProject reg fs pid nn).ok = false
          ∧ ((row.project_path ∈ fs
              ∧ ∀ q ∈ fs, pathUnder (projectsPath nn) q = false) →
            (RenameProject reg fs pid nn).msg
              = "A project with this name already exists")
          ∧ (¬(row.project_path ∈ fs
              ∧ ∀ q ∈ fs, pathUnder (projectsPath nn) q = false) →
            (RenameProject reg fs pid nn).msg
              = "Error renaming project: directory rename failed")) := by
  constructor
  · intro reg fs pid nn hfind
    simp [RenameProject, hfind]
  · intro reg fs pid nn row hfind hconf
    simp only [RenameProject, hfind]
    by_cases hdir : row.project_path ∈ fs
        ∧ ∀ q ∈ fs, pathUnder (projectsPath nn) q = false
    · rw [if_pos hdir, db_rename_conflict reg pid nn (projectsPath nn)
        row hfind hconf]
      simp only [Bool.false_eq_true, if_false]
      exact ⟨trivial, fun _ => trivial, fun h => absurd hdir h⟩
    · rw [if_neg hdir]
      exact ⟨rfl, fun h => absurd h hdir, fun _ => rfl⟩

/-- Witness for `rename_project_never_succeeds`: the absent id 5 fails as
not found; renaming project 1 to the taken name `"B"` fails in both
filesystem states — with the conflict message when `projects/B` is free,
and with the directory-step message when it is occupied. -/
theorem rename_project_never_succeeds_witness :
    demoReg.find? (fun r => r.id == 5) = none
    ∧ ((RenameProject demoReg [] 5 "C").ok = false
       ∧ (RenameProject demoReg [] 5 "C").msg = "Project not found")
    ∧ demoReg.find? (fun r => r.id == 1) = some ⟨1, "A", projectsPath "A"⟩
    ∧ demoReg.any (fun r => r.id != 1 && r.name == "B") = true
    ∧ ((RenameProject demoReg [projectsPath "A"] 1 "B").ok = false
       ∧ (((⟨1, "A", projectsPath "A"⟩ : ProjectRow).project_path
            ∈ [projectsPath "A"]
           ∧ ∀ q ∈ [projectsPath "A"], pathUnder (projectsPath "B") q
              = false) →
          (RenameProject demoReg [projectsPath "A"] 1 "B").msg
            = "A project with this name already exists")
       ∧ (¬((⟨1, "A", projectsPath "A"⟩ : ProjectRow).project_path
            ∈ [projectsPath "A"]
           ∧ ∀ q ∈ [projectsPath "A"], pathUnder (projectsPath "B") q
              = false) →
          (RenameProject demoReg [projectsPath "A"] 1 "B").msg
            = "Error renaming project: directory rename failed"))
    ∧ ((RenameProject demoReg [projectsPath "A", projectsPath "B"] 1 "B").ok
          = false
       ∧ (((⟨1, "A", projectsPath "A"⟩ : ProjectRow).project_path
            ∈ [projectsPath "A", projectsPath "B"]
           ∧ ∀ q ∈ [projectsPath "A", projectsPath "B"],
              pathUnder (projectsPath "B") q = false) →
          (RenameProject demoReg
            [projectsPath "A", projectsPath "B"] 1 "B").msg
            = "A project with this name already exists")
       ∧ (¬((⟨1, "A", projectsPath "A"⟩ : ProjectRow).project_path
            ∈ [projectsPath "A", projectsPath "B"]
           ∧ ∀ q ∈ [projectsPath "A", projectsPath "B"],
              pathUnder (projectsPath "B") q = false) →
          (RenameProject demoReg
            [projectsPath "A", projectsPath "B"] 1 "B").msg
            = "Error renaming project: directory rename failed")) :=
  ⟨by decide, rename_project_never_succeeds.1 demoReg [] 5 "C" (by decide),
    by decide, by decide,
    rename_project_never_succeeds.2 demoReg [projectsPath "A"] 1 "B"
      ⟨1, "A", projectsPath "A"⟩ (by decide) (by decide),
    rename_project_never_succeeds.2 demoReg
      [projectsPath "A", projectsPath "B"] 1 "B"
      ⟨1, "A", projectsPath "A"⟩ (by decide) (by decide)⟩
